import Mathlib

/-!
Verification development for the hard core of the `ask` repository:
the ChatGPT sentinel proof-of-work solver (`internal/provider/chatgpt/sentinel.go`)
and the Grok transaction-id generator (`internal/provider/grok/transaction.go`).

Go strings are byte sequences; we model them as `List Nat` (each element a
byte value) on the proof-of-work / token side, and as `List Char` on the
SVG-path parsing side, where the Go code operates on ASCII text.
-/

/-- Byte view of an ASCII Lean string literal (Go strings are byte slices;
all literals used here are ASCII, where codepoint = byte). -/
def strBytes (s : String) : List Nat :=
  s.data.map Char.toNat

/-- Go builtin string comparison `a <= b`: bytewise lexicographic order. -/
def goStrLe : List Nat → List Nat → Bool
  | [], _ => true
  | _ :: _, [] => false
  | a :: as, b :: bs => if a < b then true else if b < a then false else goStrLe as bs

/-- One lowercase hex digit, as in the Go `encoding/hex` alphabet. -/
def hexDigit (n : Nat) : Nat :=
  if n < 10 then 48 + n else 87 + n

/-- Go `hex.EncodeToString`: two lowercase hex characters per byte. -/
def hexEncode (bs : List Nat) : List Nat :=
  bs.flatMap (fun b => [hexDigit (b / 16), hexDigit (b % 16)])

/-- The standard base64 alphabet (Go `base64.StdEncoding`), as byte values. -/
def b64Tbl (n : Nat) : Nat :=
  if n < 26 then 65 + n
  else if n < 52 then 71 + n
  else if n < 62 then n - 4
  else if n = 62 then 43
  else 47

/-- Inverse of the standard base64 alphabet. -/
def b64Inv (c : Nat) : Nat :=
  if 65 ≤ c ∧ c ≤ 90 then c - 65
  else if 97 ≤ c ∧ c ≤ 122 then c - 71
  else if 48 ≤ c ∧ c ≤ 57 then c + 4
  else if c = 43 then 62
  else if c = 47 then 63
  else 0

/-- Go `base64.StdEncoding.EncodeToString` on a byte list (61 is the byte of
the padding character). -/
def base64Encode : List Nat → List Nat
  | b1 :: b2 :: b3 :: rest =>
    b64Tbl (b1 / 4) :: b64Tbl (b1 % 4 * 16 + b2 / 16) ::
      b64Tbl (b2 % 16 * 4 + b3 / 64) :: b64Tbl (b3 % 64) :: base64Encode rest
  | [b1, b2] => [b64Tbl (b1 / 4), b64Tbl (b1 % 4 * 16 + b2 / 16), b64Tbl (b2 % 16 * 4), 61]
  | [b1] => [b64Tbl (b1 / 4), b64Tbl (b1 % 4 * 16), 61, 61]
  | [] => []

/-- Standard base64 decoding of a padded encoding (the inverse direction of
`base64Encode`, mirroring `base64.StdEncoding.DecodeString`). -/
def base64Decode : List Nat → List Nat
  | c1 :: c2 :: c3 :: c4 :: rest =>
    if c3 = 61 then [b64Inv c1 * 4 + b64Inv c2 / 16]
    else if c4 = 61 then [b64Inv c1 * 4 + b64Inv c2 / 16, b64Inv c2 % 16 * 16 + b64Inv c3 / 4]
    else (b64Inv c1 * 4 + b64Inv c2 / 16) :: (b64Inv c2 % 16 * 16 + b64Inv c3 / 4) ::
      (b64Inv c3 % 4 * 64 + b64Inv c4) :: base64Decode rest
  | _ => []

/-- Go `strings.TrimRight(s, "=")`: strip all trailing padding bytes. -/
def trimRightEq (l : List Nat) : List Nat :=
  ((l.reverse).dropWhile (fun c => c == 61)).reverse

/-- Re-pad a stripped base64 string to a multiple of four characters
(as a consumer of the `generateID` token would before decoding). -/
def rePad (l : List Nat) : List Nat :=
  if l.length % 4 = 0 then l else l ++ List.replicate (4 - l.length % 4) 61

theorem b64Inv_tbl : ∀ x, x < 64 → b64Inv (b64Tbl x) = x := by decide

theorem b64Tbl_ne_pad : ∀ x, x < 64 → b64Tbl x ≠ 61 := by decide

/-- Decoding of a full (padded) base64 encoding recovers the input bytes. -/
theorem base64Decode_encode (bs : List Nat) (h : ∀ b ∈ bs, b < 256) :
    base64Decode (base64Encode bs) = bs := by
  induction bs using base64Encode.induct with
  | case1 b1 b2 b3 rest ih =>
    have h1 : b1 < 256 := h b1 (by simp)
    have h2 : b2 < 256 := h b2 (by simp)
    have h3 : b3 < 256 := h b3 (by simp)
    have hne3 : b64Tbl (b2 % 16 * 4 + b3 / 64) ≠ 61 := b64Tbl_ne_pad _ (by omega)
    have hne4 : b64Tbl (b3 % 64) ≠ 61 := b64Tbl_ne_pad _ (by omega)
    have e1 : b64Inv (b64Tbl (b1 / 4)) = b1 / 4 := b64Inv_tbl _ (by omega)
    have e2 : b64Inv (b64Tbl (b1 % 4 * 16 + b2 / 16)) = b1 % 4 * 16 + b2 / 16 :=
      b64Inv_tbl _ (by omega)
    have e3 : b64Inv (b64Tbl (b2 % 16 * 4 + b3 / 64)) = b2 % 16 * 4 + b3 / 64 :=
      b64Inv_tbl _ (by omega)
    have e4 : b64Inv (b64Tbl (b3 % 64)) = b3 % 64 := b64Inv_tbl _ (by omega)
    rw [base64Encode, base64Decode, if_neg hne3, if_neg hne4, e1, e2, e3, e4,
      ih (fun b hb => h b (by simp [hb]))]
    have : b1 / 4 * 4 + (b1 % 4 * 16 + b2 / 16) / 16 = b1 := by omega
    have : (b1 % 4 * 16 + b2 / 16) % 16 * 16 + (b2 % 16 * 4 + b3 / 64) / 4 = b2 := by omega
    have : (b2 % 16 * 4 + b3 / 64) % 4 * 64 + b3 % 64 = b3 := by omega
    simp_all
  | case2 b1 b2 =>
    have h1 : b1 < 256 := h b1 (by simp)
    have h2 : b2 < 256 := h b2 (by simp)
    have hne3 : b64Tbl (b2 % 16 * 4) ≠ 61 := b64Tbl_ne_pad _ (by omega)
    have e1 : b64Inv (b64Tbl (b1 / 4)) = b1 / 4 := b64Inv_tbl _ (by omega)
    have e2 : b64Inv (b64Tbl (b1 % 4 * 16 + b2 / 16)) = b1 % 4 * 16 + b2 / 16 :=
      b64Inv_tbl _ (by omega)
    have e3 : b64Inv (b64Tbl (b2 % 16 * 4)) = b2 % 16 * 4 := b64Inv_tbl _ (by omega)
    rw [base64Encode, base64Decode, if_neg hne3, if_pos rfl, e1, e2, e3]
    have : b1 / 4 * 4 + (b1 % 4 * 16 + b2 / 16) / 16 = b1 := by omega
    have : (b1 % 4 * 16 + b2 / 16) % 16 * 16 + b2 % 16 * 4 / 4 = b2 := by omega
    simp_all
  | case3 b1 =>
    have h1 : b1 < 256 := h b1 (by simp)
    have e1 : b64Inv (b64Tbl (b1 / 4)) = b1 / 4 := b64Inv_tbl _ (by omega)
    have e2 : b64Inv (b64Tbl (b1 % 4 * 16)) = b1 % 4 * 16 := b64Inv_tbl _ (by omega)
    rw [base64Encode, base64Decode, if_pos rfl, e1, e2]
    have : b1 / 4 * 4 + b1 % 4 * 16 / 16 = b1 := by omega
    simp_all
  | case4 => rfl

theorem dropWhile_of_all_false {p : Nat → Bool} :
    ∀ l : List Nat, (∀ a ∈ l, p a = false) → l.dropWhile p = l := by
  intro l h
  cases l with
  | nil => rfl
  | cons a t => rw [List.dropWhile_cons, h a (by simp)]; simp

theorem trimRightEq_append (xs ys : List Nat) (hxs : ∀ a ∈ xs, a ≠ 61) :
    trimRightEq (xs ++ ys) = xs ++ trimRightEq ys := by
  unfold trimRightEq
  rw [List.reverse_append, List.dropWhile_append]
  by_cases hemp : (ys.reverse.dropWhile (fun c => c == 61)).isEmpty
  · rw [if_pos hemp]
    have hxs' : ∀ a ∈ xs.reverse, (fun c => c == 61) a = false := by
      intro a ha
      simp only [beq_eq_false_iff_ne]
      exact hxs a (List.mem_reverse.mp ha)
    rw [dropWhile_of_all_false _ hxs', List.reverse_reverse]
    rw [List.isEmpty_iff] at hemp
    rw [hemp]
    simp
  · rw [if_neg hemp, List.reverse_append, List.reverse_reverse]

theorem rePad_cons4 (a b c d : Nat) (s : List Nat) :
    rePad (a :: b :: c :: d :: s) = a :: b :: c :: d :: rePad s := by
  unfold rePad
  have hlen : (a :: b :: c :: d :: s).length % 4 = s.length % 4 := by
    simp [List.length_cons]
    omega
  rw [hlen]
  by_cases h : s.length % 4 = 0
  · rw [if_pos h, if_pos h]
  · rw [if_neg h, if_neg h]
    simp

/-- Stripping the `=` padding from a base64 encoding and re-padding restores
the padded encoding exactly. -/
theorem rePad_trimRightEq_encode (bs : List Nat) (h : ∀ b ∈ bs, b < 256) :
    rePad (trimRightEq (base64Encode bs)) = base64Encode bs := by
  induction bs using base64Encode.induct with
  | case1 b1 b2 b3 rest ih =>
    have h1 : b1 < 256 := h b1 (by simp)
    have h2 : b2 < 256 := h b2 (by simp)
    have h3 : b3 < 256 := h b3 (by simp)
    rw [base64Encode]
    have hsplit : b64Tbl (b1 / 4) :: b64Tbl (b1 % 4 * 16 + b2 / 16) ::
        b64Tbl (b2 % 16 * 4 + b3 / 64) :: b64Tbl (b3 % 64) :: base64Encode rest =
        [b64Tbl (b1 / 4), b64Tbl (b1 % 4 * 16 + b2 / 16),
          b64Tbl (b2 % 16 * 4 + b3 / 64), b64Tbl (b3 % 64)] ++ base64Encode rest := by
      simp
    rw [hsplit, trimRightEq_append]
    · rw [List.cons_append, List.cons_append, List.cons_append, List.singleton_append,
        rePad_cons4, ih (fun b hb => h b (by simp [hb]))]
      simp
    · intro a ha
      simp at ha
      rcases ha with ha | ha | ha | ha <;>
        { subst ha; exact b64Tbl_ne_pad _ (by omega) }
  | case2 b1 b2 =>
    have h1 : b1 < 256 := h b1 (by simp)
    have h2 : b2 < 256 := h b2 (by simp)
    rw [base64Encode]
    have hsplit : [b64Tbl (b1 / 4), b64Tbl (b1 % 4 * 16 + b2 / 16), b64Tbl (b2 % 16 * 4), 61] =
        [b64Tbl (b1 / 4), b64Tbl (b1 % 4 * 16 + b2 / 16), b64Tbl (b2 % 16 * 4)] ++ [61] := rfl
    rw [hsplit, trimRightEq_append]
    · rw [show trimRightEq [61] = [] from rfl, List.append_nil]
      simp [rePad, List.replicate]
    · intro a ha
      simp at ha
      rcases ha with ha | ha | ha <;>
        { subst ha; exact b64Tbl_ne_pad _ (by omega) }
  | case3 b1 =>
    have h1 : b1 < 256 := h b1 (by simp)
    rw [base64Encode]
    have hsplit : [b64Tbl (b1 / 4), b64Tbl (b1 % 4 * 16), 61, 61] =
        [b64Tbl (b1 / 4), b64Tbl (b1 % 4 * 16)] ++ [61, 61] := rfl
    rw [hsplit, trimRightEq_append]
    · rw [show trimRightEq [61, 61] = [] from rfl, List.append_nil]
      simp [rePad, List.replicate]
    · intro a ha
      simp at ha
      rcases ha with ha | ha <;>
        { subst ha; exact b64Tbl_ne_pad _ (by omega) }
  | case4 => rfl

/-!
## Proof-of-work solver (`internal/provider/chatgpt/sentinel.go`)

`solveProofOfWork` iterates a counter, re-serializes the browser-fingerprint
config array, and tests a SHA3-512 digest against the difficulty string.
JSON serialization (`json.Marshal`) and the SHA3-512 compression function are
modelled as explicit function parameters: the claims under verification are
about the loop/compare/token structure, which is independent of the
particular values those externally-defined primitives produce.  The digest
slice `hash[:diffLen]` is modelled with `List.take` (for every real SHA3-512
digest, 64 bytes, and every difficulty up to 128 hex digits this coincides
with the Go slice).
-/

/-- A value stored in the heterogeneous `[]interface` config array. -/
inductive GoVal : Type
  | vInt : Int → GoVal
  | vStr : List Nat → GoVal
  | vFloat : ℚ → GoVal

/-- Constant `maxIterations` from sentinel.go. -/
def maxIterations : Nat := 1000000

/-- Constant `errorPrefix` from sentinel.go: the fixed error marker for fallback tokens. -/
def errorMarker : String := "gAAAAABwQ8Lk5FbGpA2NcR9dShT6gYjU7VxZ4D"

/-- Constant `resultPrefix` from sentinel.go. -/
def resultMarker : String := "gAAAAAB"

/-- The two per-iteration mutations `config[3] = i` and
`config[9] = time.Since(startTime).Milliseconds()`. -/
def setCfg (cfg : List GoVal) (i : Nat) (ms : Int) : List GoVal :=
  (cfg.set 3 (GoVal.vInt i)).set 9 (GoVal.vInt ms)

/-- The success test of one iteration:
`hex.EncodeToString(hash[:diffLen]) <= diff`. -/
def powCheck (sha3 : List Nat → List Nat) (seed diff b64 : List Nat) (diffLen : Nat) : Bool :=
  goStrLe (hexEncode ((sha3 (seed ++ b64)).take diffLen)) diff

/-- The base64 payload produced at iteration `i`:
`base64.StdEncoding.EncodeToString(json.Marshal(config))` after the two
mutations of iteration `i`. -/
def powAttempt (marshal : List GoVal → List Nat) (elapsed : Nat → Int)
    (config : List GoVal) (i : Nat) : List Nat :=
  base64Encode (marshal (setCfg config i (elapsed i)))

/-- The `for i := 0; i < maxIterations; i++` loop of `solveProofOfWork`,
with the remaining iteration budget as explicit fuel.  Returns the token,
the solved flag, and the final contents of the (caller-visible, mutated
in place) config array. -/
def solveLoop (marshal : List GoVal → List Nat) (sha3 : List Nat → List Nat)
    (elapsed : Nat → Int) (seed diff : List Nat) (diffLen : Nat) :
    List GoVal → Nat → Nat → List Nat × Bool × List GoVal
  | cfg, _, 0 =>
    (strBytes errorMarker ++ base64Encode (34 :: (seed ++ [34])), false, cfg)
  | cfg, i, fuel + 1 =>
    let cfg1 := setCfg cfg i (elapsed i)
    let b64 := base64Encode (marshal cfg1)
    if powCheck sha3 seed diff b64 diffLen then (strBytes resultMarker ++ b64, true, cfg1)
    else solveLoop marshal sha3 elapsed seed diff diffLen cfg1 (i + 1) fuel

/-- Function `solveProofOfWork(config, seed, diff)` from sentinel.go. -/
def solveProofOfWork (marshal : List GoVal → List Nat) (sha3 : List Nat → List Nat)
    (elapsed : Nat → Int) (config : List GoVal) (seed diff : List Nat) :
    List Nat × Bool × List GoVal :=
  let diffLen := diff.length / 2
  let diffLen := if diffLen = 0 then 1 else diffLen
  solveLoop marshal sha3 elapsed seed diff diffLen config 0 maxIterations

/-- Constant `defaultScript` from sentinel.go. -/
def defaultScript : List Nat :=
  strBytes "https://cdn.oaistatic.com/_next/static/chunks/app/layout-BuaxVDeh.js"

/-- Constant `defaultDPL` from sentinel.go. -/
def defaultDPL : List Nat := strBytes "4811fd1c94b550c8f03fcc863ee6c1a99940efc5"

/-- Constant `navigatorKey` from sentinel.go (the minus sign is U+2212). -/
def navigatorKey : List Nat :=
  strBytes "updateAdInterestGroups−function updateAdInterestGroups() \x7b [native code] \x7d"

/-- Constant `documentKey` from sentinel.go. -/
def documentKey : List Nat := strBytes "location"

/-- Constant `windowKey` from sentinel.go. -/
def windowKey : List Nat := strBytes "__NEXT_PRELOADREADY"

/-- Constant `defaultPerfVal` from sentinel.go (decimal literal as a rational). -/
def defaultPerfVal : ℚ := 885.6999999880791

/-- Function `buildConfig(userAgent)` from sentinel.go: the 14-field fingerprint
config array.  The randomly drawn `core`/`screen` values and the formatted
timestamp are parameters. -/
def buildConfig (core screen : Nat) (parseTime userAgent : List Nat) : List GoVal :=
  [ GoVal.vInt (core + screen),
    GoVal.vStr parseTime,
    GoVal.vInt 4294705152,
    GoVal.vInt 0,
    GoVal.vStr userAgent,
    GoVal.vStr defaultScript,
    GoVal.vStr defaultDPL,
    GoVal.vStr (strBytes "en-US"),
    GoVal.vStr (strBytes "en-US,en"),
    GoVal.vInt 0,
    GoVal.vStr navigatorKey,
    GoVal.vStr documentKey,
    GoVal.vStr windowKey,
    GoVal.vFloat defaultPerfVal ]

theorem setCfg_setCfg (cfg : List GoVal) (j k : Nat) (w v : Int) :
    setCfg (setCfg cfg j w) k v = setCfg cfg k v := by
  unfold setCfg
  apply List.ext_getElem?
  intro n
  simp only [List.getElem?_set, List.length_set]
  by_cases h3 : (3 : Nat) = n <;> by_cases h9 : (9 : Nat) = n <;> simp [h3, h9]

theorem solveLoop_eq_true (marshal : List GoVal → List Nat) (sha3 : List Nat → List Nat)
    (elapsed : Nat → Int) (seed diff : List Nat) (diffLen : Nat) (config : List GoVal) :
    ∀ fuel i cfg tok out, (∀ k v, setCfg cfg k v = setCfg config k v) →
    solveLoop marshal sha3 elapsed seed diff diffLen cfg i fuel = (tok, true, out) →
    ∃ k, i ≤ k ∧ k < i + fuel ∧
      tok = strBytes resultMarker ++ powAttempt marshal elapsed config k ∧
      out = setCfg config k (elapsed k) ∧
      powCheck sha3 seed diff (powAttempt marshal elapsed config k) diffLen = true := by
  intro fuel
  induction fuel with
  | zero =>
    intro i cfg tok out hc h
    simp [solveLoop] at h
  | succ n ih =>
    intro i cfg tok out hc h
    rw [solveLoop] at h
    by_cases hchk :
        powCheck sha3 seed diff (base64Encode (marshal (setCfg cfg i (elapsed i)))) diffLen = true
    · rw [if_pos hchk] at h
      simp only [Prod.mk.injEq] at h
      obtain ⟨htok, _, hout⟩ := h
      refine ⟨i, le_refl i, by omega, ?_, ?_, ?_⟩
      · rw [← htok]
        unfold powAttempt
        rw [hc]
      · rw [← hout, hc]
      · unfold powAttempt
        rw [← hc]
        exact hchk
    · rw [if_neg hchk] at h
      obtain ⟨k, hk1, hk2, htok, hout, hchk'⟩ :=
        ih (i + 1) (setCfg cfg i (elapsed i)) tok out
          (fun k v => by rw [setCfg_setCfg, hc]) h
      exact ⟨k, by omega, by omega, htok, hout, hchk'⟩

theorem solveLoop_exhaust (marshal : List GoVal → List Nat) (sha3 : List Nat → List Nat)
    (elapsed : Nat → Int) (seed diff : List Nat) (diffLen : Nat) (config : List GoVal) :
    ∀ fuel i cfg, (∀ k v, setCfg cfg k v = setCfg config k v) →
    (∀ k, i ≤ k → k < i + fuel →
      powCheck sha3 seed diff (powAttempt marshal elapsed config k) diffLen = false) →
    ∃ out, solveLoop marshal sha3 elapsed seed diff diffLen cfg i fuel =
      (strBytes errorMarker ++ base64Encode (34 :: (seed ++ [34])), false, out) := by
  intro fuel
  induction fuel with
  | zero =>
    intro i cfg hc hfail
    exact ⟨cfg, rfl⟩
  | succ n ih =>
    intro i cfg hc hfail
    rw [solveLoop]
    have hchk : powCheck sha3 seed diff
        (base64Encode (marshal (setCfg cfg i (elapsed i)))) diffLen = false := by
      have := hfail i (le_refl i) (by omega)
      unfold powAttempt at this
      rw [← hc] at this
      exact this
    rw [hchk]
    simp only [Bool.false_eq_true, if_false]
    exact ih (i + 1) (setCfg cfg i (elapsed i))
      (fun k v => by rw [setCfg_setCfg, hc])
      (fun k hk1 hk2 => hfail k (by omega) (by omega))

theorem solveLoop_preserves (marshal : List GoVal → List Nat) (sha3 : List Nat → List Nat)
    (elapsed : Nat → Int) (seed diff : List Nat) (diffLen : Nat) (j : Nat)
    (h3 : j ≠ 3) (h9 : j ≠ 9) :
    ∀ fuel i cfg,
      ((solveLoop marshal sha3 elapsed seed diff diffLen cfg i fuel).2.2)[j]? = cfg[j]? := by
  intro fuel
  induction fuel with
  | zero => intro i cfg; rfl
  | succ n ih =>
    intro i cfg
    rw [solveLoop]
    by_cases hchk :
        powCheck sha3 seed diff (base64Encode (marshal (setCfg cfg i (elapsed i)))) diffLen = true
    · rw [if_pos hchk]
      unfold setCfg
      rw [List.getElem?_set_ne (by omega), List.getElem?_set_ne (by omega)]
    · rw [if_neg hchk]
      rw [ih (i + 1) (setCfg cfg i (elapsed i))]
      unfold setCfg
      rw [List.getElem?_set_ne (by omega), List.getElem?_set_ne (by omega)]

/-- Claim C1: whenever `solveProofOfWork` returns with `solved = true`, the
token is `"gAAAAAB"` followed by the base64 encoding of the serialized config
carrying the winning iteration index in its counter field (and that
elapsed-time value of that iteration), and the lowercase-hex rendering of the first
`max(1, len(difficultyHex)/2)` bytes of `SHA3-512(seed ++ b64)` compares
lexicographically `≤ difficultyHex`. -/
theorem solveProofOfWork_solved_spec (marshal : List GoVal → List Nat)
    (sha3 : List Nat → List Nat) (elapsed : Nat → Int) (config : List GoVal)
    (seed diff : List Nat) (tok : List Nat) (out : List GoVal)
    (h : solveProofOfWork marshal sha3 elapsed config seed diff = (tok, true, out)) :
    ∃ i, i < maxIterations ∧
      tok = strBytes resultMarker ++
        base64Encode (marshal (setCfg config i (elapsed i))) ∧
      goStrLe (hexEncode ((sha3 (seed ++
          base64Encode (marshal (setCfg config i (elapsed i))))).take
          (max 1 (diff.length / 2)))) diff = true := by
  simp only [solveProofOfWork] at h
  have hmax : (if diff.length / 2 = 0 then 1 else diff.length / 2) = max 1 (diff.length / 2) := by
    split <;> omega
  rw [hmax] at h
  obtain ⟨k, _, hk2, htok, _, hchk⟩ :=
    solveLoop_eq_true marshal sha3 elapsed seed diff (max 1 (diff.length / 2)) config
      maxIterations 0 config tok out (fun k v => rfl) h
  refine ⟨k, by omega, ?_, ?_⟩
  · rw [htok]; rfl
  · unfold powCheck powAttempt at hchk
    exact hchk

def c1marshal : List GoVal → List Nat := fun _ => []

def c1sha3 : List Nat → List Nat := fun _ => [0]

def c1elapsed : Nat → Int := fun _ => 0

/-- Concrete instantiation of `solveProofOfWork_solved_spec`: with a digest
function returning a zero byte and difficulty `"ff"`, the solver succeeds on
iteration 0 and the postcondition holds. -/
theorem solveProofOfWork_solved_spec_witness :
    solveProofOfWork c1marshal c1sha3 c1elapsed [] [] (strBytes "ff") =
      (strBytes resultMarker, true, ([] : List GoVal)) ∧
    ∃ i, i < maxIterations ∧
      strBytes resultMarker = strBytes resultMarker ++
        base64Encode (c1marshal (setCfg [] i (c1elapsed i))) ∧
      goStrLe (hexEncode ((c1sha3 ([] ++
          base64Encode (c1marshal (setCfg [] i (c1elapsed i))))).take
          (max 1 ((strBytes "ff").length / 2)))) (strBytes "ff") = true :=
  ⟨rfl, solveProofOfWork_solved_spec c1marshal c1sha3 c1elapsed [] [] (strBytes "ff")
    (strBytes resultMarker) [] rfl⟩

/-- Claim C7: if no iteration below `maxIterations` passes the difficulty
comparison, `solveProofOfWork` still produces a token: the fixed error marker
followed by the base64 encoding of the seed wrapped in double quotes (byte 34),
together with `solved = false`. -/
theorem solveProofOfWork_exhaustion (marshal : List GoVal → List Nat)
    (sha3 : List Nat → List Nat) (elapsed : Nat → Int) (config : List GoVal)
    (seed diff : List Nat)
    (hfail : ∀ i, i < maxIterations →
      powCheck sha3 seed diff (powAttempt marshal elapsed config i)
        (if diff.length / 2 = 0 then 1 else diff.length / 2) = false) :
    (solveProofOfWork marshal sha3 elapsed config seed diff).1 =
      strBytes errorMarker ++ base64Encode (34 :: (seed ++ [34])) ∧
    (solveProofOfWork marshal sha3 elapsed config seed diff).2.1 = false := by
  obtain ⟨out, hout⟩ :=
    solveLoop_exhaust marshal sha3 elapsed seed diff
      (if diff.length / 2 = 0 then 1 else diff.length / 2) config
      maxIterations 0 config (fun k v => rfl)
      (fun k hk1 hk2 => hfail k (by omega))
  simp only [solveProofOfWork]
  rw [hout]
  exact ⟨rfl, rfl⟩

def c7marshal : List GoVal → List Nat := fun _ => []

def c7sha3 : List Nat → List Nat := fun _ => [255]

def c7elapsed : Nat → Int := fun _ => 0

/-- Concrete instantiation of `solveProofOfWork_exhaustion`: a digest whose
first byte renders as `"ff"` never passes difficulty `"00"`, so the solver
exhausts and falls back to the error token. -/
theorem solveProofOfWork_exhaustion_witness :
    (solveProofOfWork c7marshal c7sha3 c7elapsed [] (strBytes "s") (strBytes "00")).1 =
      strBytes errorMarker ++ base64Encode (34 :: (strBytes "s" ++ [34])) ∧
    (solveProofOfWork c7marshal c7sha3 c7elapsed [] (strBytes "s") (strBytes "00")).2.1 = false :=
  solveProofOfWork_exhaustion c7marshal c7sha3 c7elapsed [] (strBytes "s") (strBytes "00")
    (fun _ _ => rfl)

/-- Claim C9: across one `solveProofOfWork` call, every config field other
than the iteration counter (index 3) and the elapsed-time value (index 9)
holds, when solve returns, the same value it had on entry. -/
theorem solveProofOfWork_frame (marshal : List GoVal → List Nat)
    (sha3 : List Nat → List Nat) (elapsed : Nat → Int) (config : List GoVal)
    (seed diff : List Nat) (j : Nat) (h3 : j ≠ 3) (h9 : j ≠ 9) :
    ((solveProofOfWork marshal sha3 elapsed config seed diff).2.2)[j]? = config[j]? := by
  simp only [solveProofOfWork]
  exact solveLoop_preserves marshal sha3 elapsed seed diff _ j h3 h9 maxIterations 0 config

/-- Concrete instantiation of `solveProofOfWork_frame` at field 0 of a
`buildConfig` array. -/
theorem solveProofOfWork_frame_witness :
    ((solveProofOfWork c1marshal c1sha3 c1elapsed
        (buildConfig 8 3000 (strBytes "ts") (strBytes "ua")) [] (strBytes "ff")).2.2)[0]? =
      (buildConfig 8 3000 (strBytes "ts") (strBytes "ua"))[0]? :=
  solveProofOfWork_frame c1marshal c1sha3 c1elapsed
    (buildConfig 8 3000 (strBytes "ts") (strBytes "ua")) [] (strBytes "ff") 0
    (by decide) (by decide)

/-!
## Transaction-id generator (`internal/provider/grok/transaction.go`)

`generateID` builds `keyBytes ++ timeBytes ++ digest[0:16] ++ [3]`, prepends a
random byte, XORs everything after the first byte with it, base64-encodes and
strips `=` padding.  The SHA-256 digest is a function parameter.
-/

/-- The XOR obfuscation step of `generateID`: `out[0] = rnd`,
`out[i+1] = payload[i] XOR rnd`. -/
def xorObfuscate (rnd : Nat) (payload : List Nat) : List Nat :=
  rnd :: payload.map (fun b => b ^^^ rnd)

/-- Decoding `r ++ (p XOR r)` by XOR-ing every byte after the first with the
first byte (the decoder described by the spec for the obfuscation used in
`generateID`; the repository itself only encodes). -/
def xorDecode : List Nat → List Nat
  | [] => []
  | r :: rest => rest.map (fun b => b ^^^ r)

/-- The four little-endian time bytes `byte(now)`, `byte(now>>8)`,
`byte(now>>16)`, `byte(now>>24)`. -/
def timeBytesOf (now : Nat) : List Nat :=
  [now % 256, now / 256 % 256, now / 65536 % 256, now / 16777216 % 256]

/-- The obfuscated byte string assembled by `generateID` before encoding:
random byte, then `keyBytes ++ timeBytes ++ hash[:16] ++ [3]` each XORed with
the random byte. -/
def generateIDBytes (keyBytes : List Nat) (now : Nat) (digest : List Nat)
    (rnd : Nat) : List Nat :=
  xorObfuscate rnd (keyBytes ++ timeBytesOf now ++ digest.take 16 ++ [3])

/-- The token returned by `generateID`: standard base64 with `=` padding
stripped. -/
def generateIDToken (keyBytes : List Nat) (now : Nat) (digest : List Nat)
    (rnd : Nat) : List Nat :=
  trimRightEq (base64Encode (generateIDBytes keyBytes now digest rnd))

/-- Claim C5: the XOR obfuscation applied in `generateID` round-trips — for
every payload `p` and first byte `r`, XOR-ing every byte after the first with
the first byte reproduces `p` exactly. -/
theorem xorObfuscate_roundTrip (r : Nat) (p : List Nat) :
    xorDecode (xorObfuscate r p) = p := by
  show (p.map (fun b => b ^^^ r)).map (fun b => b ^^^ r) = p
  rw [List.map_map]
  have : ∀ b : Nat, b ^^^ r ^^^ r = b := by
    intro b
    rw [Nat.xor_assoc, Nat.xor_self, Nat.xor_zero]
  calc (p.map ((fun b => b ^^^ r) ∘ fun b => b ^^^ r)) = p.map id := by
        apply List.map_congr_left
        intro b _
        exact this b
    _ = p := List.map_id p

/-- Claim C6: the `generateID` token, re-padded and base64-decoded, yields
exactly the obfuscated byte string, whose length is
`len(keyBytes) + 4 + 16 + 1 + 1`. -/
theorem generateIDToken_decode (keyBytes digest : List Nat) (now rnd : Nat)
    (hkb : ∀ b ∈ keyBytes, b < 256) (hd : ∀ b ∈ digest, b < 256)
    (hdl : digest.length = 32) (hr : rnd < 256) :
    base64Decode (rePad (generateIDToken keyBytes now digest rnd)) =
      generateIDBytes keyBytes now digest rnd ∧
    (generateIDBytes keyBytes now digest rnd).length = keyBytes.length + 4 + 16 + 1 + 1 := by
  have hbytes : ∀ b ∈ generateIDBytes keyBytes now digest rnd, b < 256 := by
    intro b hb
    unfold generateIDBytes xorObfuscate at hb
    rcases List.mem_cons.mp hb with hb | hb
    · omega
    · obtain ⟨a, ha, rfl⟩ := List.mem_map.mp hb
      have ha256 : a < 256 := by
        rcases List.mem_append.mp ha with ha | ha
        · rcases List.mem_append.mp ha with ha | ha
          · rcases List.mem_append.mp ha with ha | ha
            · exact hkb a ha
            · unfold timeBytesOf at ha
              simp at ha
              rcases ha with ha | ha | ha | ha <;> omega
          · exact hd a (List.mem_of_mem_take ha)
        · simp at ha
          omega
      have : a ^^^ rnd < 2 ^ 8 :=
        Nat.xor_lt_two_pow (by omega) (by omega)
      omega
  constructor
  · unfold generateIDToken
    rw [rePad_trimRightEq_encode _ hbytes, base64Decode_encode _ hbytes]
  · unfold generateIDBytes xorObfuscate
    simp [timeBytesOf, List.length_take, hdl]

/-- Concrete instantiation of `generateIDToken_decode` with empty key bytes
and an all-zero 32-byte digest. -/
theorem generateIDToken_decode_witness :
    base64Decode (rePad (generateIDToken [] 0 (List.replicate 32 0) 0)) =
      generateIDBytes [] 0 (List.replicate 32 0) 0 ∧
    (generateIDBytes [] 0 (List.replicate 32 0) 0).length =
      ([] : List Nat).length + 4 + 16 + 1 + 1 :=
  generateIDToken_decode [] (List.replicate 32 0) 0 0
    (by simp) (by simp) (by simp) (by decide)

/-!
## Cached initialization state machine (`ensureInitialized`)

The generator state and the refresh step, with the network fetch and the
scraping/derivation helpers abstracted as an environment of functions.  The
third component of the result records whether the call reached the homepage
fetch (the cache-check failed), which is exactly when `fetchHomepageHTML`
runs in the Go code.  Time is in seconds; `transactionCacheTTL` is 1 hour.
-/

/-- The cached fields of `transactionGenerator`. -/
structure GenState where
  homePageHTML : List Char
  defaultRowIndex : Nat
  defaultKeyIndices : List Nat
  key : List Char
  keyBytes : List Nat
  animationKey : List Char
  initialized : Bool
  cachedAt : Nat

/-- Constant `transactionCacheTTL = 1 * time.Hour`, in seconds. -/
def transactionCacheTTLsecs : Nat := 3600

/-- The external collaborators of one `ensureInitialized` call: the homepage
fetch result, and the (network/regex-based) extraction and derivation
helpers as functions of the fetched markup. -/
structure InitEnv where
  fetchHomepageHTML : Except (List Char) (List Char)
  getIndices : List Char → Except (List Char) (Nat × List Nat)
  getKey : List Char → List Char
  getKeyBytes : List Char → List Nat
  getAnimKey : Nat → List Nat → List Char → List Nat → List Char

/-- Function `ensureInitialized` from transaction.go: returns the updated state, the
error (if any), and whether the homepage fetch was performed. -/
def ensureInitialized (env : InitEnv) (now : Nat) (g : GenState) :
    GenState × Option (List Char) × Bool :=
  if g.initialized = true ∧ now - g.cachedAt < transactionCacheTTLsecs then (g, none, false)
  else
    match env.fetchHomepageHTML with
    | Except.error e => (g, some e, true)
    | Except.ok html =>
      let g1 := { g with homePageHTML := html, cachedAt := now }
      match env.getIndices html with
      | Except.error e => (g1, some e, true)
      | Except.ok (ri, kis) =>
        let g2 := { g1 with defaultRowIndex := ri, defaultKeyIndices := kis }
        let key := env.getKey html
        let kb := env.getKeyBytes key
        let ak := env.getAnimKey ri kis html kb
        ({ g2 with key := key, keyBytes := kb, animationKey := ak, initialized := true },
          none, true)

def c2envFail : InitEnv :=
  { fetchHomepageHTML := Except.ok ("NEW".data)
    getIndices := fun _ => Except.error ("could not get KEY_BYTE indices".data)
    getKey := fun _ => []
    getKeyBytes := fun _ => [9, 9]
    getAnimKey := fun _ _ _ _ => [] }

def c2envLater : InitEnv :=
  { fetchHomepageHTML := Except.ok ("NEW2".data)
    getIndices := fun _ => Except.ok (0, [])
    getKey := fun _ => []
    getKeyBytes := fun _ => [7]
    getAnimKey := fun _ _ _ _ => [] }

def c2populated : GenState :=
  { homePageHTML := "OLD".data
    defaultRowIndex := 1
    defaultKeyIndices := [2]
    key := "k".data
    keyBytes := [1, 2, 3]
    animationKey := "ak".data
    initialized := true
    cachedAt := 0 }

def c2afterFail : GenState := (ensureInitialized c2envFail 4000 c2populated).1

/-- Claim C2 (failing trace): a cache populated at t = 0 expires; the refresh
at t = 4000 fetches a new homepage but fails at index extraction, leaving
`homePageHTML`/`cachedAt` updated, the derived key material stale, and
`initialized` still true.  The next call at t = 4100 (within the TTL of the
failed refresh) performs no fetch and reports no error: the half-built state
is reused instead of re-running initialization. -/
theorem ensureInitialized_stale_after_failed_refresh :
    (ensureInitialized c2envFail 4000 c2populated).2.1.isSome = true ∧
    (ensureInitialized c2envFail 4000 c2populated).2.2 = true ∧
    c2afterFail.initialized = true ∧
    c2afterFail.cachedAt = 4000 ∧
    c2afterFail.homePageHTML = "NEW".data ∧
    c2afterFail.keyBytes = [1, 2, 3] ∧
    (ensureInitialized c2envLater 4100 c2afterFail).2.2 = false ∧
    (ensureInitialized c2envLater 4100 c2afterFail).2.1 = none ∧
    (ensureInitialized c2envLater 4100 c2afterFail).1.keyBytes = [1, 2, 3] :=
  ⟨rfl, rfl, rfl, rfl, rfl, rfl, rfl, rfl, rfl⟩

/-- Claim C8: if a call to `ensureInitialized` at time `t0` populates the
cache (no error, fetch performed), then a later call less than the TTL after
`t0` performs no homepage fetch, and a later call more than the TTL after
`t0` does perform one. -/
theorem ensureInitialized_ttl (env0 env1 env2 : InitEnv) (g0 g1 : GenState)
    (t0 t1 : Nat)
    (hpop : ensureInitialized env0 t0 g0 = (g1, none, true)) :
    (t1 - t0 < transactionCacheTTLsecs → (ensureInitialized env1 t1 g1).2.2 = false) ∧
    (transactionCacheTTLsecs < t1 - t0 → (ensureInitialized env2 t1 g1).2.2 = true) := by
  have hstate : g1.initialized = true ∧ g1.cachedAt = t0 := by
    unfold ensureInitialized at hpop
    split at hpop
    · simp at hpop
    · split at hpop
      · simp at hpop
      · split at hpop
        · simp at hpop
        · simp only [Prod.mk.injEq] at hpop
          obtain ⟨hg, -, -⟩ := hpop
          rw [← hg]
          exact ⟨rfl, rfl⟩
  constructor
  · intro hlt
    unfold ensureInitialized
    rw [if_pos ⟨hstate.1, hstate.2 ▸ hlt⟩]
  · intro hgt
    unfold ensureInitialized
    rw [if_neg (by rw [hstate.2]; omega)]
    split
    · rfl
    · split
      · rfl
      · rfl

def c8envOk : InitEnv :=
  { fetchHomepageHTML := Except.ok ("HOME".data)
    getIndices := fun _ => Except.ok (3, [5, 8])
    getKey := fun _ => "vk".data
    getKeyBytes := fun _ => [10, 20, 30]
    getAnimKey := fun _ _ _ _ => "anim".data }

def c8fresh : GenState :=
  { homePageHTML := []
    defaultRowIndex := 0
    defaultKeyIndices := []
    key := []
    keyBytes := []
    animationKey := []
    initialized := false
    cachedAt := 0 }

/-- Concrete instantiation of `ensureInitialized_ttl`: a cold cache populated
at t = 0, probed again at t = 100. -/
theorem ensureInitialized_ttl_witness :
    (100 - 0 < transactionCacheTTLsecs →
      (ensureInitialized c8envOk 100 (ensureInitialized c8envOk 0 c8fresh).1).2.2 = false) ∧
    (transactionCacheTTLsecs < 100 - 0 →
      (ensureInitialized c8envOk 100 (ensureInitialized c8envOk 0 c8fresh).1).2.2 = true) :=
  ensureInitialized_ttl c8envOk c8envOk c8envOk c8fresh
    (ensureInitialized c8envOk 0 c8fresh).1 0 100 rfl

/-!
## Animation-key derivation (`get2dArray`, `animate`, `getAnimationKey`)

SVG path strings are ASCII; they are modelled as `List Char`.  The
floating-point primitives that do not affect control flow or sequence
accesses — the cubic-Bezier bisection loop, `math.Cos`/`math.Sin`, and the
hex-with-fraction rendering `floatToHex` (all of which depend on IEEE-754
rounding) — are abstracted as a `FloatOps` parameter; the exact rational
arithmetic (`solve`, interpolation, rounding, clamping) is embedded directly
over `ℚ`.
-/

/-- Go `strings.TrimSpace` for strings whose only whitespace is a blank. -/
def trimSpaceChars (l : List Char) : List Char :=
  ((l.dropWhile (fun c => c == ' ')).reverse.dropWhile (fun c => c == ' ')).reverse

/-- Go `strings.Fields` for strings whose only whitespace is a blank. -/
def fieldsChars (l : List Char) : List (List Char) :=
  (l.splitOn ' ').filter (fun s => s ≠ [])

/-- Go `strconv.Atoi` on an all-digit token. -/
def digitsToNat (l : List Char) : Nat :=
  l.foldl (fun acc c => acc * 10 + (c.toNat - 48)) 0

/-- The per-segment body of the `get2dArray` loop: map non-digits to blanks,
trim, and tokenize into integers. -/
def parseItem (item : List Char) : List Nat :=
  let cleaned := item.map (fun r => if r.isDigit then r else ' ')
  let cleaned := trimSpaceChars cleaned
  if cleaned = [] then []
  else (fieldsChars cleaned).map digitsToNat

/-- Function `get2dArray(keyBytes)` from transaction.go, with the frames already
extracted from the homepage by `getFramesD`.  `none` models the Go panic on
the unguarded `keyBytes[5]` access; every in-range outcome is `some`. -/
def get2dArray (frames : List (List Char)) (keyBytes : List Nat) :
    Option (List (List Nat)) :=
  if frames.length = 0 then some [[]]
  else
    match keyBytes[5]? with
    | none => none
    | some b5 =>
      let frameIndex := b5 % 4
      let dAttr := frames.getD (frameIndex % frames.length) []
      if dAttr.length ≤ 9 then some []
      else some (((dAttr.drop 9).splitOn 'C').map parseItem)

/-- The 2D table built from one selected path string (the part of
`get2dArray` after frame selection). -/
def tableOfDAttr (dAttr : List Char) : List (List Nat) :=
  if dAttr.length ≤ 9 then []
  else ((dAttr.drop 9).splitOn 'C').map parseItem

/-- The floating-point primitives of the animation pipeline, abstracted:
the cubic-Bezier solve (`cubicBezier.getValue`, a float bisection loop),
`math.Cos`, `math.Sin`, and the fractional hex rendering `floatToHex`. -/
structure FloatOps where
  bezier : ℚ → ℚ → ℚ → ℚ → ℚ → ℚ
  cos : ℚ → ℚ
  sin : ℚ → ℚ
  hexFrac : ℚ → List Char

/-- Go `math.Round` (half away from zero), as an integer. -/
def goRound (x : ℚ) : Int :=
  if x < 0 then -(Int.floor (-x + 1 / 2)) else Int.floor (x + 1 / 2)

/-- Rounding `math.Round(x*100) / 100` to two decimal places. -/
def goRound2 (x : ℚ) : ℚ :=
  (goRound (x * 100) : ℚ) / 100

/-- Function `solve(value, minVal, maxVal, rounding)` from transaction.go. -/
def solveScale (value minVal maxVal : ℚ) (rounding : Bool) : ℚ :=
  let result := value * (maxVal - minVal) / 255 + minVal
  if rounding then (Int.floor result : ℚ)
  else goRound2 result

/-- Function `isOdd(num)` from transaction.go: `-1.0` for odd, `0.0` for even. -/
def isOddQ (num : Nat) : ℚ :=
  if num % 2 ≠ 0 then -1 else 0

/-- Function `interpolate(from, to, f)` from transaction.go. -/
def interpolate (a b : List ℚ) (f : ℚ) : List ℚ :=
  (List.range a.length).map (fun i => a.getD i 0 * (1 - f) + b.getD i 0 * f)

/-- The float64 value of Go `math.Pi`, as an exact rational. -/
def goPi : ℚ := 884279719003555 / 281474976710656

/-- Function `convertRotationToMatrix(rotation)` from transaction.go. -/
def convertRotationToMatrix (ops : FloatOps) (rotation : ℚ) : List ℚ :=
  let rad := rotation * goPi / 180
  [ops.cos rad, -(ops.sin rad), ops.sin rad, ops.cos rad]

/-- Go slice expression `l[i:]`: valid only when `i ≤ len(l)`, otherwise a
runtime panic (modelled as `none`). -/
def goSliceFrom (l : List Nat) (i : Nat) : Option (List Nat) :=
  if i ≤ l.length then some (l.drop i) else none

/-- Go hex rendering of a non-negative integer, lowercase and unpadded. -/
def natToHexChars (n : Nat) : List Char :=
  Nat.toDigits 16 n

/-- Function `animate(frames, targetTime)` from transaction.go.  `none` models the
panic of the unguarded slice `frames[7:]`; everything else is total. -/
def animate (ops : FloatOps) (frames : List Nat) (targetTime : ℚ) : Option (List Char) :=
  let get := fun (i : Nat) => if i < frames.length then ((frames.getD i 0 : Nat) : ℚ) else 0
  let fromColor := [get 0, get 1, get 2, 1]
  let toColor := [get 3, get 4, get 5, 1]
  let fromRotation : List ℚ := [0]
  let toRotation := [solveScale (get 6) 60 360 true]
  match goSliceFrom frames 7 with
  | none => none
  | some remaining =>
    let curves := (List.range remaining.length).map
      (fun i => solveScale ((remaining.getD i 0 : Nat) : ℚ) (isOddQ i) 1 false)
    let c := fun (j : Nat) => curves.getD j 0
    let val := ops.bezier (c 0) (c 1) (c 2) (c 3) targetTime
    let color0 := interpolate fromColor toColor val
    let color := color0.map (fun x => if x < 0 then 0 else x)
    let rotation := interpolate fromRotation toRotation val
    let matrix := convertRotationToMatrix ops (rotation.getD 0 0)
    let colorStrs := (color.take 3).map (fun v => natToHexChars (goRound v).toNat)
    let matrixStrs := matrix.map (fun v =>
      let rounded := goRound2 v
      let rounded := if rounded < 0 then -rounded else rounded
      let hexVal := ops.hexFrac rounded
      let hexVal := if hexVal.head? = some '.' then '0' :: hexVal else hexVal
      hexVal.map Char.toLower)
    let strArr := colorStrs ++ matrixStrs ++ [['0'], ['0']]
    let joined := strArr.flatten
    some (joined.filter (fun ch => !(ch == '.' || ch == '-')))

/-- The multiplicative `frameTime` accumulator of `getAnimationKey`
(before the floor-to-multiple-of-10 step). -/
def frameTimeRaw (keyIndices : List Nat) (keyBytes : List Nat) : Nat :=
  keyIndices.foldl
    (fun acc idx => if idx < keyBytes.length then acc * (keyBytes.getD idx 0 % 16) else acc) 1

/-- Function `getAnimationKey(keyBytes)` from transaction.go (`totalTime = 4096`).
`none` models a panic inside `animate`. -/
def getAnimationKey (ops : FloatOps) (defaultRowIndex : Nat)
    (defaultKeyIndices : List Nat) (frames : List (List Char))
    (keyBytes : List Nat) : Option (List Char) :=
  if keyBytes.length ≤ defaultRowIndex ∨ keyBytes.length ≤ 5 then some []
  else
    let rowIndex := keyBytes.getD defaultRowIndex 0 % 16
    let frameTime := frameTimeRaw defaultKeyIndices keyBytes / 10 * 10
    match get2dArray frames keyBytes with
    | none => none
    | some arr =>
      if arr.length ≤ rowIndex then some []
      else
        let row := arr.getD rowIndex []
        animate ops row ((frameTime : Nat) / (4096 : ℚ))

/-- The row that `getAnimationKey` hands to `animate`. -/
def selRow (frames : List (List Char)) (keyBytes : List Nat)
    (defaultRowIndex : Nat) : List Nat :=
  ((get2dArray frames keyBytes).getD []).getD (keyBytes.getD defaultRowIndex 0 % 16) []

theorem getElem?_eq_some_getD (kb : List Nat) (h5 : 5 < kb.length) :
    kb[5]? = some (kb.getD 5 0) := by
  rw [List.getElem?_eq_getElem h5, List.getD_eq_getElem?_getD, List.getElem?_eq_getElem h5]
  rfl

/-- Claim C3 (amended): with a non-empty frame list and `len(keyBytes) > 5`,
`get2dArray` builds its table from the frame at index
`(keyBytes[5] mod 4) mod numberOfFrames`. -/
theorem get2dArray_frame_selection (frames : List (List Char)) (kb : List Nat)
    (hf : frames ≠ []) (h5 : 5 < kb.length) :
    get2dArray frames kb =
      some (tableOfDAttr (frames.getD (kb.getD 5 0 % 4 % frames.length) [])) := by
  have hlen : ¬frames.length = 0 := by
    intro h
    exact hf (List.length_eq_zero.mp h)
  unfold get2dArray tableOfDAttr
  simp only [if_neg hlen, getElem?_eq_some_getD kb h5]
  by_cases hd : (frames.getD (kb.getD 5 0 % 4 % frames.length) []).length ≤ 9
  · rw [if_pos hd, if_pos hd]
  · rw [if_neg hd, if_neg hd]

def cxFrames : List (List Char) :=
  ["AAAAAAAAA1".data, "AAAAAAAAA2".data, "AAAAAAAAA3".data]

def cxKB : List Nat := [0, 0, 0, 0, 0, 5]

/-- Claim C3 (counterexample): with three frames and `keyBytes[5] = 5`, the
code consumes the frame at index `(5 mod 4) mod 3 = 1`, not the frame at
index `5 mod 3 = 2` that the claimed `keyBytes[5] mod numberOfFrames`
formula selects: the resulting tables differ. -/
theorem get2dArray_frame_selection_cx :
    ¬get2dArray cxFrames cxKB =
      some (tableOfDAttr (cxFrames.getD (cxKB.getD 5 0 % cxFrames.length) [])) := by
  decide

/-- Concrete instantiation of `get2dArray_frame_selection`. -/
theorem get2dArray_frame_selection_witness :
    get2dArray cxFrames cxKB =
      some (tableOfDAttr (cxFrames.getD (cxKB.getD 5 0 % 4 % cxFrames.length) [])) :=
  get2dArray_frame_selection cxFrames cxKB (by decide) (by decide)

theorem animate_isSome_of (ops : FloatOps) (row : List Nat) (t : ℚ)
    (h : 7 ≤ row.length) : (animate ops row t).isSome = true := by
  unfold animate goSliceFrom
  rw [if_pos h]
  rfl

theorem get2dArray_isSome (frames : List (List Char)) (kb : List Nat)
    (h5 : 5 < kb.length) : ∃ arr, get2dArray frames kb = some arr := by
  unfold get2dArray
  by_cases hf : frames.length = 0
  · rw [if_pos hf]
    exact ⟨[[]], rfl⟩
  · simp only [if_neg hf, getElem?_eq_some_getD kb h5]
    by_cases hd : (frames.getD (kb.getD 5 0 % 4 % frames.length) []).length ≤ 9
    · rw [if_pos hd]
      exact ⟨[], rfl⟩
    · rw [if_neg hd]
      exact ⟨_, rfl⟩

/-- Claim C4 (amended): under the two length guards, every sequence access in
`get2dArray` and `getAnimationKey` is in bounds, and the derivation returns a
string whenever the selected row has at least 7 entries (the unguarded
`row[7:]` slice in `animate`) or the row index falls outside the table (the
empty-key early return). -/
theorem getAnimationKey_total (ops : FloatOps) (defaultRowIndex : Nat)
    (kis : List Nat) (frames : List (List Char)) (kb : List Nat)
    (h1 : defaultRowIndex < kb.length) (h2 : 5 < kb.length)
    (hrow : 7 ≤ (selRow frames kb defaultRowIndex).length ∨
      ((get2dArray frames kb).getD []).length ≤ kb.getD defaultRowIndex 0 % 16) :
    (getAnimationKey ops defaultRowIndex kis frames kb).isSome = true := by
  obtain ⟨arr, harr⟩ := get2dArray_isSome frames kb h2
  unfold getAnimationKey
  rw [if_neg (by omega)]
  simp only [harr]
  by_cases hx : arr.length ≤ kb.getD defaultRowIndex 0 % 16
  · rw [if_pos hx]
    rfl
  · rw [if_neg hx]
    apply animate_isSome_of
    rcases hrow with hrow | hrow
    · unfold selRow at hrow
      rw [harr] at hrow
      exact hrow
    · rw [harr] at hrow
      simp only [Option.getD_some] at hrow
      omega

def opsZero : FloatOps :=
  { bezier := fun _ _ _ _ _ => 0
    cos := fun _ => 0
    sin := fun _ => 0
    hexFrac := fun _ => [] }

/-- Claim C4 (counterexample): with no animation frames extracted,
`get2dArray` yields the table `[[]]`, the selected row is empty, and the
`row[7:]` slice in `animate` faults even though both length guards pass. -/
theorem getAnimationKey_total_cx :
    0 < ([0, 0, 0, 0, 0, 0] : List Nat).length ∧
    5 < ([0, 0, 0, 0, 0, 0] : List Nat).length ∧
    getAnimationKey opsZero 0 [] [] [0, 0, 0, 0, 0, 0] = none :=
  ⟨by decide, by decide, rfl⟩

def c4Frames : List (List Char) := ["AAAAAAAAA1 2 3 4 5 6 7 8".data]

/-- Concrete instantiation of `getAnimationKey_total`: a frame whose path
yields an 8-entry row. -/
theorem getAnimationKey_total_witness :
    7 ≤ (selRow c4Frames [0, 0, 0, 0, 0, 0] 0).length ∧
    (getAnimationKey opsZero 0 [] c4Frames [0, 0, 0, 0, 0, 0]).isSome = true :=
  ⟨by decide, getAnimationKey_total opsZero 0 [] c4Frames [0, 0, 0, 0, 0, 0]
    (by decide) (by decide) (Or.inl (by decide))⟩

/-- Claim C10: with empty `keyIndices` the multiplicative accumulator stays
at its start value 1, the floor-to-multiple-of-10 step yields
`frameTime = 1 / 10 * 10 = 0`, and `targetTime = 0 / 4096 = 0`. -/
theorem frameTime_empty_keyIndices (kb : List Nat) :
    frameTimeRaw [] kb = 1 ∧
    frameTimeRaw [] kb / 10 * 10 = 0 ∧
    ((frameTimeRaw [] kb / 10 * 10 : Nat) : ℚ) / 4096 = 0 := by
  have h1 : frameTimeRaw [] kb = 1 := rfl
  have h2 : (1 / 10 * 10 : Nat) = 0 := by decide
  refine ⟨h1, ?_, ?_⟩
  · rw [h1, h2]
  · rw [h1, h2]
    simp
